import Mathlib

/-!
Shallow embedding of the orchestration core of `ueberzug` (src/ueberzug/layer.py)
and verification of its specified properties.

The file models the pure content of the four reactive activities:
the Display-Event Reactor (`process_xevents`), the Command Dispatcher
(`process_commands`), the Session Reconciler (`query_windows`) and the
Shutdown Coordinator (`shutdown`).  External collaborators (the X display,
the protocol codec, the action classes) are abstracted as function
parameters; machine-level effects (stderr writes, task scheduling,
queue discards) are reified as explicit event values.
-/

namespace Ueberzug

/-- Embeds `geometry.Distance`, the pane offset assigned to `View.offset`
(layer.py line 57).  Its payload is irrelevant to the claims; two integer
components stand in for the real fields. -/
structure Distance where
  x : Int
  y : Int
deriving DecidableEq

/-- Embeds the `View` data class (layer.py lines 193-200): `offset`,
`media`, `screen_width`, `screen_height`.  `media` maps logical layer
identifiers to their last requested placement; the placement payload is
abstracted to a string. -/
structure View where
  offset : Distance
  media : List (String × String)
  screen_width : Nat
  screen_height : Nat
deriving DecidableEq

/-- Embeds `xutil.get_parent_window_infos` entries: each info carries the
X id of a parent terminal surface (`info.window_id`, layer.py line 59). -/
structure WindowInfo where
  window_id : Nat
deriving DecidableEq

/-- Embeds a registry window handle: only its `parent_id` attribute is
read by the Session Reconciler (layer.py line 62). -/
structure Window where
  parent_id : Nat
deriving DecidableEq

/-- Keys of the dict `{info.window_id: info for info in parent_window_infos}`
(layer.py lines 58-61): the set of live parent window ids.  Python dict
keys form a set, so duplicates collapse. -/
def get_parent_window_ids (parent_window_infos : List WindowInfo) : Finset Nat :=
  (parent_window_infos.map WindowInfo.window_id).toFinset

/-- Keys of the dict `{window.parent_id: window for window in windows}`
(layer.py lines 62-63): the set of parent ids currently tracked by the
Window Registry. -/
def get_current_window_ids (windows : List Window) : Finset Nat :=
  (windows.map Window.parent_id).toFinset

/-- Result of one Session Reconciler run at the id-set level:
which ids were added / removed, whether a redraw broadcast was issued,
and the registry's parent-id set afterwards. -/
structure ReconcileResult where
  addedIds : Finset Nat
  removedIds : Finset Nat
  draw : Bool
  registryIds : Finset Nat

/-- Embeds layer.py lines 64-78, the set arithmetic of `query_windows`:
`diff_window_ids = parent_window_ids ^ current_window_ids` (symmetric
difference), `added_window_ids = diff & parent`,
`removed_window_ids = diff & current`, `draw = added or removed`
(truthiness = nonemptiness).  The registry afterwards holds the old
windows minus the removed ones plus one window per added id
(`windows += factory.create(...)`, `windows -= [...]`, lines 69-75). -/
def reconcile (parent_window_ids current_window_ids : Finset Nat) : ReconcileResult :=
  let diff_window_ids :=
    (parent_window_ids \ current_window_ids) ∪ (current_window_ids \ parent_window_ids)
  let added_window_ids := diff_window_ids ∩ parent_window_ids
  let removed_window_ids := diff_window_ids ∩ current_window_ids
  { addedIds := added_window_ids
    removedIds := removed_window_ids
    draw := decide (added_window_ids.Nonempty ∨ removed_window_ids.Nonempty)
    registryIds := (current_window_ids \ removed_window_ids) ∪ added_window_ids }

/-- Result of one invocation of the full `query_windows` coroutine:
the updated `View` and the reconciliation outcome. -/
structure QueryWindowsResult where
  view : View
  recon : ReconcileResult

/-- Embeds the `query_windows` coroutine (layer.py lines 50-78).
`tmux_offset` stands for the value returned by `tmux_util.get_offset()`;
line 57 assigns it to `view.offset` unconditionally, before the diff.
No other `View` field is touched. -/
def query_windows (parent_window_infos : List WindowInfo) (tmux_offset : Distance)
    (windows : List Window) (view : View) : QueryWindowsResult :=
  let view := { view with offset := tmux_offset }
  { view := view
    recon :=
      reconcile (get_parent_window_ids parent_window_infos)
        (get_current_window_ids windows) }

/-- Embeds `re.sub("\\\\[$]", "$", line)` (layer.py line 40): every
non-overlapping occurrence of the two-character sequence backslash-dollar
is rewritten, left to right, to a single dollar character. -/
def unescape : List Char → List Char
  | [] => []
  | [c] => [c]
  | c1 :: c2 :: rest =>
    if c1 = '\\' ∧ c2 = '$' then '$' :: unescape rest
    else c1 :: unescape (c2 :: rest)

/-- The string the dispatcher hands to the protocol codec for one line:
`tools.parser.parse(line[:-1])` after the unescape (layer.py lines 40-41),
i.e. the unescaped line with its final character removed. -/
def handed_to_codec (line : List Char) : List Char :=
  (unescape line).dropLast

/-- Embeds the Python exception taxonomy visible at the dispatcher's
`except` clause (layer.py line 44): the four caught classes plus an
arbitrary uncaught class. -/
inductive PyError where
  | osError (message : String)
  | keyError (message : String)
  | valueError (message : String)
  | typeError (message : String)
  | otherError (name message : String)

/-- The exception's class name, `type(exception).__name__`
(layer.py line 184). -/
def PyError.name : PyError → String
  | .osError _ => "OSError"
  | .keyError _ => "KeyError"
  | .valueError _ => "ValueError"
  | .typeError _ => "TypeError"
  | .otherError n _ => n

/-- The exception's string form, `str(exception)` (layer.py line 185). -/
def PyError.message : PyError → String
  | .osError m => m
  | .keyError m => m
  | .valueError m => m
  | .typeError m => m
  | .otherError _ m => m

/-- Whether the exception is one of `(OSError, KeyError, ValueError,
TypeError)` caught at layer.py line 44. -/
def PyError.catchable : PyError → Bool
  | .otherError _ _ => false
  | _ => true

/-- The mapping unparsed onto standard error for one reported exception
(layer.py lines 179-190): `type` = "error", `name` = class name,
`message` = string form. -/
structure ErrorRecord where
  type : String
  name : String
  message : String
deriving DecidableEq

/-- Embeds `process_error` (layer.py lines 179-190) composed with the
error handler wrapper (lines 172-176): builds the structured record that
the codec unparses onto stderr. -/
def process_error (exception : PyError) : ErrorRecord :=
  { type := "error", name := exception.name, message := exception.message }

/-- Observable actions of the Command Dispatcher: one structured error
record printed to stderr, or one scheduling of the shutdown routine
(`asyncio.ensure_future(shutdown_routine_factory())`, layer.py line 47). -/
inductive DispatchEvent where
  | errorRecord (record : ErrorRecord)
  | scheduleShutdown
deriving DecidableEq

/-- Recognizes the shutdown-scheduling event. -/
def isScheduleShutdown : DispatchEvent → Bool
  | .scheduleShutdown => true
  | .errorRecord _ => false

/-- Embeds the read loop of `process_commands` (layer.py lines 35-45).
`execute` abstracts `parse` + `Command` + `apply` on the string handed to
the codec: `none` means the line was dispatched successfully, `some e`
that exception `e` was raised.  Returns the emitted error records and,
when an uncatchable exception escaped the per-line handler, that
exception. -/
def dispatch_loop (execute : List Char → Option PyError) :
    List (List Char) → List DispatchEvent × Option PyError
  | [] => ([], none)
  | line :: rest =>
    if line = [] then ([], none)
    else
      match execute (handed_to_codec line) with
      | none => dispatch_loop execute rest
      | some error =>
        if error.catchable then
          let r := dispatch_loop execute rest
          (DispatchEvent.errorRecord (process_error error) :: r.1, r.2)
        else ([], some error)

/-- Embeds the whole `process_commands` coroutine (layer.py lines 30-47):
the read loop wrapped in `try ... finally`, whose `finally` block
schedules the shutdown routine exactly once on every exit path. -/
def process_commands (execute : List Char → Option PyError)
    (lines : List (List Char)) : List DispatchEvent × Option PyError :=
  let r := dispatch_loop execute lines
  (r.1 ++ [DispatchEvent.scheduleShutdown], r.2)

/-- An asyncio task as seen by the Shutdown Coordinator: its identity and
the exception (if any) it raises while being cancelled and gathered. -/
structure AsyncTask where
  taskId : Nat
  cancelException : Option String
deriving DecidableEq

/-- Observable actions of the Shutdown Coordinator: cancellation requests,
the gather of the cancelled tasks' outcomes (with `return_exceptions=True`
the exceptions are collected, not raised), and `loop.stop()`. -/
inductive ShutdownEvent where
  | cancelRequested (taskId : Nat)
  | gathered (results : List (Option String))
  | loopStopped
deriving DecidableEq

/-- Embeds the `shutdown` coroutine (layer.py lines 88-99): filter out the
current task, cancel each remaining task, gather them collecting their
exceptions, then stop the loop.  Returns the event trace and the
exception escaping the coroutine (`none`: `return_exceptions=True` keeps
gather from propagating). -/
def shutdown (all_tasks : List AsyncTask) (current_task : Nat) :
    List ShutdownEvent × Option String :=
  let tasks := all_tasks.filter (fun task => task.taskId ≠ current_task)
  ((tasks.map fun task => ShutdownEvent.cancelRequested task.taskId) ++
      [ShutdownEvent.gathered (tasks.map AsyncTask.cancelException),
        ShutdownEvent.loopStopped],
    none)

/-- Embeds one turn of the `process_xevents` loop (layer.py lines 23-27)
for a single X event: every window is offered the event
(`windows.process_event()` broadcasts over the registry), and
`display.discard_event()` runs iff no window claimed it.  Returns the
number of discard calls issued for this event. -/
def process_xevent (windows : List Window) (process_event : Window → Bool) : Nat :=
  if (windows.map process_event).any (fun claimed => claimed) then 0 else 1

/-! Helper lemmas about `unescape`. -/

/-- Every character of an unescaped line occurs in the original line:
the rewrite only deletes backslashes that precede a dollar. -/
theorem mem_of_mem_unescape (l : List Char) :
    ∀ c, c ∈ unescape l → c ∈ l := by
  induction l using unescape.induct with
  | case1 => simp [unescape]
  | case2 c => simp [unescape]
  | case3 c1 c2 rest h ih =>
    intro c hc
    rw [unescape, if_pos h] at hc
    rcases List.mem_cons.mp hc with h1 | h1
    · subst h1; simp [h.2]
    · exact List.mem_cons_of_mem _ (List.mem_cons_of_mem _ (ih c h1))
  | case4 c1 c2 rest h ih =>
    intro c hc
    rw [unescape, if_neg h] at hc
    rcases List.mem_cons.mp hc with h1 | h1
    · subst h1; simp
    · exact List.mem_cons_of_mem _ (ih c h1)

/-- A line without a dollar character is left unchanged by the rewrite. -/
theorem unescape_no_dollar (l : List Char) (h : '$' ∉ l) : unescape l = l := by
  induction l using unescape.induct with
  | case1 => rfl
  | case2 c => rfl
  | case3 c1 c2 rest hif ih =>
    exact absurd (by simp [hif.2]) h
  | case4 c1 c2 rest hif ih =>
    rw [unescape, if_neg hif, ih (fun hm => h (List.mem_cons_of_mem _ hm))]

/-- Appending a final character other than a dollar commutes with the
rewrite: the new last character can complete no backslash-dollar pair. -/
theorem unescape_append_last (c : Char) (hc : c ≠ '$') (l : List Char) :
    unescape (l ++ [c]) = unescape l ++ [c] := by
  induction l using unescape.induct with
  | case1 => rfl
  | case2 c1 =>
    show unescape (c1 :: c :: []) = _
    simp only [unescape]
    rw [if_neg (fun hand => hc hand.2)]
    rfl
  | case3 c1 c2 rest hif ih =>
    show unescape (c1 :: c2 :: (rest ++ [c])) = _
    simp only [unescape]
    rw [if_pos hif, ih, if_pos hif]
    rfl
  | case4 c1 c2 rest hif ih =>
    show unescape (c1 :: c2 :: (rest ++ [c])) = _
    simp only [unescape]
    rw [if_neg hif]
    have h2 : c2 :: rest ++ [c] = c2 :: (rest ++ [c]) := rfl
    rw [← h2, ih, if_neg hif]
    rfl

/-- A dollar-free prefix passes through the rewrite untouched, as long as
the remainder of the line does not begin with a dollar character. -/
theorem unescape_append_of_no_dollar (t : List Char)
    (ht : ∀ c, t.head? = some c → c ≠ '$') :
    ∀ a, '$' ∉ a → unescape (a ++ t) = a ++ unescape t := by
  intro a
  induction a with
  | nil => intro _; rfl
  | cons x a2 ih =>
    intro ha
    have ha2 : '$' ∉ a2 := fun hm => ha (List.mem_cons_of_mem _ hm)
    cases a2 with
    | nil =>
      show unescape (x :: t) = x :: unescape t
      cases t with
      | nil => rfl
      | cons y rest =>
        have hy : y ≠ '$' := ht y rfl
        show unescape (x :: y :: rest) = x :: unescape (y :: rest)
        simp only [unescape]
        rw [if_neg (fun hand => hy hand.2)]
    | cons z a3 =>
      have hz : z ≠ '$' := fun he => ha2 (he ▸ List.mem_cons_self _ _)
      show unescape (x :: z :: (a3 ++ t)) = x :: ((z :: a3) ++ unescape t)
      simp only [unescape]
      rw [if_neg (fun hand => hz hand.2), ← List.cons_append, ih ha2]

/-! Helper lemmas about `reconcile`. -/

/-- The added ids are exactly the live ids not currently tracked. -/
theorem reconcile_addedIds (p c : Finset Nat) : (reconcile p c).addedIds = p \ c := by
  simp only [reconcile]
  ext x
  simp only [Finset.mem_inter, Finset.mem_union, Finset.mem_sdiff]
  tauto

/-- The removed ids are exactly the tracked ids no longer live. -/
theorem reconcile_removedIds (p c : Finset Nat) : (reconcile p c).removedIds = c \ p := by
  simp only [reconcile]
  ext x
  simp only [Finset.mem_inter, Finset.mem_union, Finset.mem_sdiff]
  tauto

/-- After reconciliation, the registry tracks exactly the live ids. -/
theorem reconcile_registryIds (p c : Finset Nat) : (reconcile p c).registryIds = p := by
  simp only [reconcile]
  ext x
  simp only [Finset.mem_union, Finset.mem_sdiff, Finset.mem_inter]
  tauto

/-- Reconciling a registry that already matches the live set issues no
redraw broadcast. -/
theorem reconcile_draw_self (p : Finset Nat) : (reconcile p p).draw = false := by
  simp only [reconcile]
  simp

/-! Helper lemmas about the dispatcher. -/

/-- The read loop itself never schedules the shutdown routine; only the
surrounding `finally` block does. -/
theorem dispatch_loop_no_shutdown (execute : List Char → Option PyError)
    (lines : List (List Char)) :
    ((dispatch_loop execute lines).1.countP isScheduleShutdown) = 0 := by
  induction lines with
  | nil => simp [dispatch_loop]
  | cons line rest ih =>
    rw [dispatch_loop]
    split
    · simp
    · split
      · exact ih
      · split
        · simpa [List.countP_cons, isScheduleShutdown] using ih
        · simp

/-! Claim theorems. -/

/-- Claim C1: one invocation of the Session Reconciler (`query_windows`)
adds windows exactly for the live parent ids not currently tracked
(L minus C), removes windows exactly for the tracked ids no longer live
(C minus L), and leaves the registry's parent-id set equal to the live id
set; in particular, for any registry with parent ids 1, 2, 3 and live
client ids 2, 3, 4 it creates exactly one window (parent id 4), removes
exactly one (parent id 1), and leaves the registry at ids 2, 3, 4. -/
theorem query_windows_set_diff (parent_window_infos : List WindowInfo)
    (tmux_offset : Distance) (windows : List Window) (view : View) :
    (query_windows parent_window_infos tmux_offset windows view).recon.addedIds =
      get_parent_window_ids parent_window_infos \ get_current_window_ids windows ∧
    (query_windows parent_window_infos tmux_offset windows view).recon.removedIds =
      get_current_window_ids windows \ get_parent_window_ids parent_window_infos ∧
    (query_windows parent_window_infos tmux_offset windows view).recon.registryIds =
      get_parent_window_ids parent_window_infos ∧
    (get_current_window_ids windows = {1, 2, 3} →
      get_parent_window_ids parent_window_infos = {2, 3, 4} →
      (query_windows parent_window_infos tmux_offset windows view).recon.addedIds = {4} ∧
      (query_windows parent_window_infos tmux_offset windows view).recon.addedIds.card = 1 ∧
      (query_windows parent_window_infos tmux_offset windows view).recon.removedIds = {1} ∧
      (query_windows parent_window_infos tmux_offset windows view).recon.removedIds.card = 1 ∧
      (query_windows parent_window_infos tmux_offset windows view).recon.registryIds =
        {2, 3, 4}) := by
  simp only [query_windows]
  refine ⟨reconcile_addedIds _ _, reconcile_removedIds _ _, reconcile_registryIds _ _, ?_⟩
  intro hc hp
  rw [hc, hp]
  decide

/-- Witness for C1: a registry tracking parent ids 1, 2, 3 reconciled
against live clients 2, 3, 4. -/
theorem query_windows_set_diff_witness :
    (query_windows [⟨2⟩, ⟨3⟩, ⟨4⟩] ⟨0, 0⟩ [⟨1⟩, ⟨2⟩, ⟨3⟩]
        ⟨⟨0, 0⟩, [], 0, 0⟩).recon.addedIds = {4} ∧
    (query_windows [⟨2⟩, ⟨3⟩, ⟨4⟩] ⟨0, 0⟩ [⟨1⟩, ⟨2⟩, ⟨3⟩]
        ⟨⟨0, 0⟩, [], 0, 0⟩).recon.addedIds.card = 1 ∧
    (query_windows [⟨2⟩, ⟨3⟩, ⟨4⟩] ⟨0, 0⟩ [⟨1⟩, ⟨2⟩, ⟨3⟩]
        ⟨⟨0, 0⟩, [], 0, 0⟩).recon.removedIds = {1} ∧
    (query_windows [⟨2⟩, ⟨3⟩, ⟨4⟩] ⟨0, 0⟩ [⟨1⟩, ⟨2⟩, ⟨3⟩]
        ⟨⟨0, 0⟩, [], 0, 0⟩).recon.removedIds.card = 1 ∧
    (query_windows [⟨2⟩, ⟨3⟩, ⟨4⟩] ⟨0, 0⟩ [⟨1⟩, ⟨2⟩, ⟨3⟩]
        ⟨⟨0, 0⟩, [], 0, 0⟩).recon.registryIds = {2, 3, 4} :=
  (query_windows_set_diff [⟨2⟩, ⟨3⟩, ⟨4⟩] ⟨0, 0⟩ [⟨1⟩, ⟨2⟩, ⟨3⟩]
      ⟨⟨0, 0⟩, [], 0, 0⟩).2.2.2 (by decide) (by decide)

/-- Claim C2: when the live client id set equals the registry's current
parent-id set, `query_windows` adds nothing, removes nothing and issues
no redraw broadcast; and a second reconciliation right after a first one,
with the live set unchanged, likewise performs zero creations and
destructions and no draw (the first run leaves the registry equal to the
live set). -/
theorem reconcile_idempotent (parent_window_infos : List WindowInfo)
    (tmux_offset : Distance) (windows : List Window) (view : View)
    (h : get_parent_window_ids parent_window_infos = get_current_window_ids windows) :
    (query_windows parent_window_infos tmux_offset windows view).recon.addedIds = ∅ ∧
    (query_windows parent_window_infos tmux_offset windows view).recon.removedIds = ∅ ∧
    (query_windows parent_window_infos tmux_offset windows view).recon.draw = false ∧
    ∀ p c : Finset Nat,
      (reconcile p (reconcile p c).registryIds).addedIds = ∅ ∧
      (reconcile p (reconcile p c).registryIds).removedIds = ∅ ∧
      (reconcile p (reconcile p c).registryIds).draw = false := by
  simp only [query_windows]
  rw [h]
  refine ⟨by rw [reconcile_addedIds]; simp, by rw [reconcile_removedIds]; simp,
    reconcile_draw_self _, ?_⟩
  intro p c
  rw [reconcile_registryIds]
  exact ⟨by rw [reconcile_addedIds]; simp, by rw [reconcile_removedIds]; simp,
    reconcile_draw_self p⟩

/-- Witness for C2: a registry tracking exactly the one live client. -/
theorem reconcile_idempotent_witness :
    (query_windows [⟨7⟩] ⟨0, 0⟩ [⟨7⟩] ⟨⟨0, 0⟩, [], 0, 0⟩).recon.addedIds = ∅ ∧
    (query_windows [⟨7⟩] ⟨0, 0⟩ [⟨7⟩] ⟨⟨0, 0⟩, [], 0, 0⟩).recon.removedIds = ∅ ∧
    (query_windows [⟨7⟩] ⟨0, 0⟩ [⟨7⟩] ⟨⟨0, 0⟩, [], 0, 0⟩).recon.draw = false ∧
    ∀ p c : Finset Nat,
      (reconcile p (reconcile p c).registryIds).addedIds = ∅ ∧
      (reconcile p (reconcile p c).registryIds).removedIds = ∅ ∧
      (reconcile p (reconcile p c).registryIds).draw = false :=
  reconcile_idempotent [⟨7⟩] ⟨0, 0⟩ [⟨7⟩] ⟨⟨0, 0⟩, [], 0, 0⟩ (by decide)

/-- Claim C3: in one reconciliation no parent id is both added and
removed: the added and removed id sets of `query_windows` are disjoint
for every pair of live and tracked id sets. -/
theorem added_removed_disjoint (parent_window_infos : List WindowInfo)
    (tmux_offset : Distance) (windows : List Window) (view : View) :
    (query_windows parent_window_infos tmux_offset windows view).recon.addedIds ∩
      (query_windows parent_window_infos tmux_offset windows view).recon.removedIds = ∅ := by
  simp only [query_windows]
  rw [reconcile_addedIds, reconcile_removedIds]
  ext x
  simp only [Finset.mem_inter, Finset.mem_sdiff, Finset.not_mem_empty, iff_false, not_and]
  tauto

/-- Claim C4: a line whose processing raises one of the caught exception
classes makes the dispatcher emit exactly one structured error record
(type "error", name = the exception's class name, message = its string
form) and continue with the subsequent lines; the malformed line neither
terminates the dispatcher nor changes which later exception, if any,
escapes. -/
theorem malformed_line_one_error_record (execute : List Char → Option PyError)
    (line : List Char) (rest : List (List Char)) (error : PyError)
    (hne : line ≠ []) (hexec : execute (handed_to_codec line) = some error)
    (hcatch : error.catchable = true) :
    (process_commands execute (line :: rest)).1 =
      DispatchEvent.errorRecord (process_error error) ::
        (process_commands execute rest).1 ∧
    (process_commands execute (line :: rest)).2 = (process_commands execute rest).2 ∧
    process_error error =
      { type := "error", name := error.name, message := error.message } := by
  simp only [process_commands, dispatch_loop]
  rw [if_neg hne, hexec]
  simp [hcatch, process_error]

/-- Witness for C4: a one-line stream whose only line raises a ValueError. -/
theorem malformed_line_one_error_record_witness :
    (process_commands (fun _ => some (PyError.valueError "malformed"))
        [['a'], ['b']]).1 =
      DispatchEvent.errorRecord (process_error (PyError.valueError "malformed")) ::
        (process_commands (fun _ => some (PyError.valueError "malformed")) [['b']]).1 :=
  (malformed_line_one_error_record (fun _ => some (PyError.valueError "malformed"))
      ['a'] [['b']] (PyError.valueError "malformed") (by decide) rfl rfl).1

/-- Claim C5: the dispatcher rewrites every backslash-dollar pair to a
dollar before decoding, so a line carrying the escaped form of a value
decodes to that value with the literal dollar restored, for any value
whose surrounding parts contain no dollar themselves. -/
theorem escape_round_trip (a b : List Char) (ha : '$' ∉ a) (hb : '$' ∉ b) :
    unescape (a ++ '\\' :: '$' :: b) = a ++ '$' :: b := by
  have ht : ∀ c, ('\\' :: '$' :: b).head? = some c → c ≠ '$' := by
    intro c hc
    injection hc with h
    subst h
    decide
  rw [unescape_append_of_no_dollar ('\\' :: '$' :: b) ht a ha]
  have h2 : unescape ('\\' :: '$' :: b) = '$' :: b := by
    simp [unescape, unescape_no_dollar b hb]
  rw [h2]

/-- Witness for C5: the line v backslash dollar w unescapes to v dollar w. -/
theorem escape_round_trip_witness :
    unescape (['v'] ++ '\\' :: '$' :: ['w']) = ['v'] ++ '$' :: ['w'] :=
  escape_round_trip ['v'] ['w'] (by decide) (by decide)

/-- Claim C6: on every input stream the dispatcher schedules the Shutdown
Coordinator exactly once on its exit path (the `finally` block), whether
the loop ends at an empty line, at end of input, or because an uncaught
exception escaped the per-line handler; an empty line (like end of input)
terminates the read loop, so nothing after it is processed. -/
theorem shutdown_always_scheduled_once (execute : List Char → Option PyError)
    (lines : List (List Char)) :
    ((process_commands execute lines).1.countP isScheduleShutdown) = 1 ∧
    (process_commands execute ([] :: lines)).1 = [DispatchEvent.scheduleShutdown] ∧
    (process_commands execute []).1 = [DispatchEvent.scheduleShutdown] := by
  refine ⟨?_, ?_, rfl⟩
  · rw [process_commands]
    simp [List.countP_append, dispatch_loop_no_shutdown, List.countP_cons,
      isScheduleShutdown]
  · rw [process_commands, dispatch_loop]
    simp

/-- Claim C7: one invocation of the Shutdown Coordinator requests
cancellation of exactly the scheduled tasks other than itself, gathers
all of them with their exceptions collected, stops the loop only after
that gather (the stop event is last, preceded by the gather of every
cancelled task's outcome), and lets no exception escape. -/
theorem shutdown_cancels_all_except_self (all_tasks : List AsyncTask)
    (current_task : Nat) :
    (shutdown all_tasks current_task).1 =
      ((all_tasks.filter fun task => task.taskId ≠ current_task).map
          fun task => ShutdownEvent.cancelRequested task.taskId) ++
        [ShutdownEvent.gathered
            ((all_tasks.filter fun task => task.taskId ≠ current_task).map
              AsyncTask.cancelException),
          ShutdownEvent.loopStopped] ∧
    (∀ task ∈ all_tasks, task.taskId ≠ current_task →
      ShutdownEvent.cancelRequested task.taskId ∈ (shutdown all_tasks current_task).1) ∧
    ShutdownEvent.cancelRequested current_task ∉ (shutdown all_tasks current_task).1 ∧
    (shutdown all_tasks current_task).1.getLast? = some ShutdownEvent.loopStopped ∧
    (shutdown all_tasks current_task).2 = none := by
  refine ⟨rfl, ?_, ?_, ?_, rfl⟩
  · intro task hmem hne
    simp only [shutdown, List.mem_append, List.mem_map, List.mem_filter]
    exact Or.inl ⟨task, ⟨hmem, by simpa using hne⟩, rfl⟩
  · simp only [shutdown, List.mem_append, List.mem_map, List.mem_filter,
      List.mem_cons, List.not_mem_nil, or_false]
    rintro (⟨task, ⟨hmem, hne⟩, heq⟩ | heq | heq)
    · have h2 : task.taskId = current_task := ShutdownEvent.cancelRequested.inj heq
      have h3 : task.taskId ≠ current_task := by simpa using hne
      exact h3 h2
    · exact ShutdownEvent.noConfusion heq
    · exact ShutdownEvent.noConfusion heq
  · rw [shutdown]
    rw [show ∀ g : ShutdownEvent, ∀ l : List ShutdownEvent,
        l ++ [g, ShutdownEvent.loopStopped] =
          (l ++ [g]) ++ [ShutdownEvent.loopStopped] from fun g l => by simp]
    exact List.getLast?_concat _

/-- Witness for C7: two tasks, the coordinator running as task 0. -/
theorem shutdown_cancels_all_except_self_witness :
    ShutdownEvent.cancelRequested 1 ∈ (shutdown [⟨0, none⟩, ⟨1, some "x"⟩] 0).1 ∧
    ShutdownEvent.cancelRequested 0 ∉ (shutdown [⟨0, none⟩, ⟨1, some "x"⟩] 0).1 ∧
    (shutdown [⟨0, none⟩, ⟨1, some "x"⟩] 0).2 = none :=
  ⟨(shutdown_cancels_all_except_self [⟨0, none⟩, ⟨1, some "x"⟩] 0).2.1
      ⟨1, some "x"⟩ (by simp) (by decide),
    (shutdown_cancels_all_except_self [⟨0, none⟩, ⟨1, some "x"⟩] 0).2.2.1,
    (shutdown_cancels_all_except_self [⟨0, none⟩, ⟨1, some "x"⟩] 0).2.2.2.2⟩

/-- Claim C8: for one X event, if some window claims it the Reactor does
not discard it, and if no window claims it the Reactor discards it from
the connection's queue exactly once. -/
theorem unclaimed_event_discarded_once (windows : List Window)
    (process_event : Window → Bool) :
    ((∃ window ∈ windows, process_event window = true) →
      process_xevent windows process_event = 0) ∧
    ((∀ window ∈ windows, process_event window = false) →
      process_xevent windows process_event = 1) := by
  have hkey : ((windows.map process_event).any fun claimed => claimed) =
      windows.any process_event := by
    induction windows with
    | nil => rfl
    | cons w ws ih => simp [List.any, ih]
  constructor
  · rintro ⟨w, hw, hpe⟩
    rw [process_xevent, hkey, if_pos (List.any_eq_true.mpr ⟨w, hw, hpe⟩)]
  · intro hall
    rw [process_xevent, hkey, if_neg]
    intro hany
    rcases List.any_eq_true.mp hany with ⟨w, hw, hpe⟩
    rw [hall w hw] at hpe
    exact Bool.false_ne_true hpe

/-- Witness for C8: a one-window registry that claims, then one that
declines. -/
theorem unclaimed_event_discarded_once_witness :
    process_xevent [⟨1⟩] (fun _ => true) = 0 ∧
    process_xevent [⟨1⟩] (fun _ => false) = 1 :=
  ⟨(unclaimed_event_discarded_once [⟨1⟩] (fun _ => true)).1 ⟨⟨1⟩, by simp, rfl⟩,
    (unclaimed_event_discarded_once [⟨1⟩] (fun _ => false)).2 (fun _ _ => rfl)⟩

/-- Claim C9: the string handed to the protocol codec is the unescaped
line with its final character removed; a line ending in a newline reaches
the codec without that newline, and a final line lacking the trailing
newline loses its last payload character instead. -/
theorem codec_input_drops_last_char (s : List Char) (hs : '\n' ∉ s) :
    (∀ line, handed_to_codec line = (unescape line).dropLast) ∧
    handed_to_codec (s ++ ['\n']) = unescape s ∧
    '\n' ∉ handed_to_codec (s ++ ['\n']) ∧
    (∀ t c, c ≠ '$' → handed_to_codec (t ++ [c]) = unescape t) := by
  have hdrop : ∀ t c, c ≠ '$' → handed_to_codec (t ++ [c]) = unescape t := by
    intro t c hc
    rw [handed_to_codec, unescape_append_last c hc, List.dropLast_concat]
  have hmain : handed_to_codec (s ++ ['\n']) = unescape s :=
    hdrop s '\n' (by decide)
  refine ⟨fun _ => rfl, hmain, ?_, hdrop⟩
  rw [hmain]
  intro hmem
  exact hs (mem_of_mem_unescape s '\n' hmem)

/-- Witness for C9: the line consisting of one payload character and a
newline. -/
theorem codec_input_drops_last_char_witness :
    handed_to_codec (['a'] ++ ['\n']) = unescape ['a'] ∧
    '\n' ∉ handed_to_codec (['a'] ++ ['\n']) :=
  ⟨(codec_input_drops_last_char ['a'] (by decide)).2.1,
    (codec_input_drops_last_char ['a'] (by decide)).2.2.1⟩

/-- Claim C10: every invocation of `query_windows` reassigns the view's
offset to the multiplexer's current offset -- the assignment is
unconditional, so it happens in particular when the added and removed
sets are both empty -- and leaves the view's media, screen width and
screen height untouched. -/
theorem query_windows_offset_frame (parent_window_infos : List WindowInfo)
    (tmux_offset : Distance) (windows : List Window) (view : View) :
    (query_windows parent_window_infos tmux_offset windows view).view.offset =
      tmux_offset ∧
    (query_windows parent_window_infos tmux_offset windows view).view.media =
      view.media ∧
    (query_windows parent_window_infos tmux_offset windows view).view.screen_width =
      view.screen_width ∧
    (query_windows parent_window_infos tmux_offset windows view).view.screen_height =
      view.screen_height :=
  ⟨rfl, rfl, rfl, rfl⟩

end Ueberzug
